import Mathlib

set_option linter.unusedVariables false

/-!
# Verification of the orchestration middleware core

Shallow embedding, in Lean 4, of the orchestration middleware of this
repository: content hashing (`src/hooks/utils/hashing.ts`), the file
snapshot tracker (`src/hooks/utils/fileState.ts`), the trace ledger
(`traceStorage.ts`), the mutation classifier
(`src/hooks/utils/mutationClassifier.ts`), the write gatekeeper
(`src/hooks/preHooks/writeFile.ts`), the post-write recorder
(`src/hooks/postHooks/writeFile.ts`), the read pre-hook, the lessons
store (`claudeManager.ts`) and the `record_lesson` tool
(`recordLessonTool.ts`).

Conventions of the embedding:
* Strings are Lean `String`s, manipulated through their `List Char`
  data where the source manipulates them character-wise.  String
  lengths are code-point counts (the sources are exercised on ASCII,
  where this coincides with JavaScript's UTF-16 `length`).
* The raw SHA-256 hex digest provided by node's `crypto` is an
  external primitive; definitions are parameterised by it as a
  function `H : String → String`.  `JSON.stringify` / `JSON.parse`
  and the system clock / UUID generator are parameterised likewise.
* Fallible disk operations are modelled by explicit disk states
  (`Option`/sum types); a JavaScript `throw` that a caller observes is
  an `Except.error`.
* Paths follow POSIX separators (the `path` module on linux).
-/

namespace Orchestration

/-! ## Line-ending normalisation and line splitting (hashing.ts) -/

/-- One step of `content.replace(/\r\n/g, "\n")`: every CRLF pair becomes
LF, scanning left to right without revisiting replaced text. -/
def collapseCRLF : List Char → List Char
  | [] => []
  | [c] => [c]
  | c1 :: c2 :: rest =>
    if c1 = '\r' ∧ c2 = '\n' then '\n' :: collapseCRLF rest
    else c1 :: collapseCRLF (c2 :: rest)

/-- `content.replace(/\r/g, "\n")`: every remaining CR becomes LF. -/
def mapCR (l : List Char) : List Char :=
  l.map fun c => if c = '\r' then '\n' else c

/-- `normalizeLineEndings` from hashing.ts: CRLF then stray CR to LF. -/
def normalizeLE (l : List Char) : List Char :=
  mapCR (collapseCRLF l)

/-- JavaScript `s.split(sep)` for a one-character separator, on a
character list: the list of chunks between separators (never empty;
`[""]` for the empty string). -/
def splitCh (sep : Char) : List Char → List (List Char)
  | [] => [[]]
  | c :: rest =>
    if c = sep then [] :: splitCh sep rest
    else
      match splitCh sep rest with
      | [] => [[c]]
      | h :: t => (c :: h) :: t

/-- JavaScript `chunks.join(sep)` for a one-character separator. -/
def joinCh (sep : Char) (chunks : List (List Char)) : List Char :=
  (chunks.intersperse [sep]).flatten

/-- `s.split("\n")`. -/
def splitNL : List Char → List (List Char) := splitCh '\n'

/-- `chunks.join("\n")`. -/
def joinNL : List (List Char) → List Char := joinCh '\n'

theorem splitCh_ne_nil (sep : Char) (l : List Char) : splitCh sep l ≠ [] := by
  induction l with
  | nil => simp [splitCh]
  | cons c rest ih =>
    by_cases h : c = sep
    · simp [splitCh, h]
    · simp only [splitCh, if_neg h]
      cases hr : splitCh sep rest with
      | nil => simp
      | cons h2 t2 => simp

theorem joinCh_splitCh (sep : Char) (l : List Char) :
    joinCh sep (splitCh sep l) = l := by
  induction l with
  | nil => simp [splitCh, joinCh]
  | cons c rest ih =>
    by_cases h : c = sep
    · subst h
      simp only [splitCh, if_pos rfl]
      cases hr : splitCh c rest with
      | nil => exact absurd hr (splitCh_ne_nil c rest)
      | cons h2 t2 =>
        rw [hr] at ih
        simp only [joinCh, List.intersperse] at ih ⊢
        simp [ih]
    · simp only [splitCh, if_neg h]
      cases hr : splitCh sep rest with
      | nil => exact absurd hr (splitCh_ne_nil sep rest)
      | cons h2 t2 =>
        rw [hr] at ih
        cases t2 with
        | nil => simpa [joinCh, List.intersperse] using ih
        | cons x xs =>
          simp only [joinCh, List.intersperse] at ih ⊢
          simpa using ih

theorem splitNL_ne_nil (l : List Char) : splitNL l ≠ [] :=
  splitCh_ne_nil '\n' l

theorem joinNL_splitNL (l : List Char) : joinNL (splitNL l) = l :=
  joinCh_splitCh '\n' l

theorem not_cr_mem_mapCR (l : List Char) : '\r' ∉ mapCR l := by
  intro hmem
  simp only [mapCR, List.mem_map] at hmem
  obtain ⟨c, _, hc⟩ := hmem
  by_cases h : c = '\r' <;> simp [h] at hc

theorem collapseCRLF_of_not_cr {l : List Char} (h : '\r' ∉ l) :
    collapseCRLF l = l := by
  induction l with
  | nil => simp [collapseCRLF]
  | cons c rest ih =>
    have hc : c ≠ '\r' := fun hc => h (hc ▸ List.mem_cons_self c rest)
    have hr : '\r' ∉ rest := fun hr => h (List.mem_cons_of_mem c hr)
    cases rest with
    | nil => simp [collapseCRLF]
    | cons c2 rest2 =>
      have hcond : ¬(c = '\r' ∧ c2 = '\n') := fun hand => hc hand.1
      rw [collapseCRLF, if_neg hcond, ih hr]

theorem mapCR_of_not_cr {l : List Char} (h : '\r' ∉ l) : mapCR l = l := by
  induction l with
  | nil => rfl
  | cons c rest ih =>
    have hc : c ≠ '\r' := fun hc => h (hc ▸ List.mem_cons_self c rest)
    have hr : '\r' ∉ rest := fun hr => h (List.mem_cons_of_mem c hr)
    simp only [mapCR, List.map_cons] at ih ⊢
    rw [if_neg hc, ih hr]

theorem normalizeLE_idem (l : List Char) :
    normalizeLE (normalizeLE l) = normalizeLE l := by
  unfold normalizeLE
  rw [collapseCRLF_of_not_cr (not_cr_mem_mapCR _), mapCR_of_not_cr (not_cr_mem_mapCR _)]

/-! ## SHA-256 digests over normalised content (hashing.ts)

`H` stands for the raw hex digest of node's `crypto`
(`createHash("sha256").update(·).digest("hex")`), an external primitive. -/

/-- `sha256` from hashing.ts: hex digest of the line-ending-normalised content. -/
def sha256 (H : String → String) (content : String) : String :=
  H (String.mk (normalizeLE content.data))

/-- `computeContentHash` from hashing.ts.  `startLine` and `endLine` are
1-based inclusive; when either is omitted the whole content is hashed.
Call sites pass non-negative integers, rendered as `Nat` (for which
JavaScript's `Math.max(0, startLine - 1)` agrees with truncated
subtraction). -/
def computeContentHash (H : String → String) (content : String)
    (startLine? endLine? : Option Nat) : String :=
  match startLine?, endLine? with
  | some startLine, some endLine =>
    let lines := splitNL (normalizeLE content.data)
    let start := max 0 (startLine - 1)
    let stop := min lines.length endLine
    if start ≥ stop then sha256 H ""
    else sha256 H (String.mk (joinNL ((lines.take stop).drop start)))
  | _, _ => sha256 H content

/-- Line count as the claim words it: the number of `"\n"`-separated lines
of `x` after line-ending normalisation. -/
def lineCountNorm (x : String) : Nat :=
  (splitNL (normalizeLE x.data)).length

/-- **C6.** For every raw digest primitive `H` and every string `x`,
`digest_range(x, 1, line_count(x)) = digest(x)`: hashing the full
1-based line range of `x` equals hashing `x` itself, because both
normalise line endings before hashing and line extraction joins with
`"\n"` without altering content. -/
theorem computeContentHash_full_range_eq_sha256 (H : String → String) (x : String) :
    computeContentHash H x (some 1) (some (lineCountNorm x)) = sha256 H x := by
  have hne := splitNL_ne_nil (normalizeLE x.data)
  have hpos : 0 < (splitNL (normalizeLE x.data)).length := List.length_pos.mpr hne
  simp only [computeContentHash, lineCountNorm]
  rw [if_neg (by simpa using hne)]
  simp only [Nat.sub_self, Nat.max_self, min_self, List.take_length, List.drop_zero]
  rw [joinNL_splitNL]
  simp only [sha256]
  rw [normalizeLE_idem]

/-! ## POSIX path handling (node's `path` module on linux)

The sources run `path.isAbsolute`, `path.resolve`, `path.normalize`,
`path.relative` and `path.sep`; workspace roots are absolute paths. -/

/-- `p.split("/")`. -/
def splitSlash (s : String) : List String :=
  (splitCh '/' s.data).map String.mk

/-- Segments joined with `"/"`. -/
def intercalateSlash (segs : List String) : String :=
  String.mk (joinCh '/' (segs.map String.data))

/-- `path.isAbsolute` on POSIX. -/
def isAbsolutePath (p : String) : Bool :=
  match p.data with
  | '/' :: _ => true
  | _ => false

/-- Segment resolution of an absolute path: drop empty and `.` segments,
let `..` pop the previous segment (a no-op at the root), as
`path.normalize` does for absolute POSIX paths. -/
def normSegs (segs : List String) : List String :=
  segs.foldl
    (fun acc seg =>
      if seg = "" ∨ seg = "." then acc
      else if seg = ".." then acc.dropLast
      else acc ++ [seg])
    []

/-- `path.isAbsolute(p) ? p : path.resolve(root, p)` — the absolute path
the tracker hands to `fs.readFile` (for a non-absolute `p`, resolution
against the absolute workspace root). -/
def resolveAbsPath (root p : String) : String :=
  if isAbsolutePath p then p
  else "/" ++ intercalateSlash (normSegs (splitSlash (root ++ "/" ++ p)))

/-- Strip the longest common prefix of two segment lists. -/
def dropCommonSegs : List String → List String → List String × List String
  | a :: as, b :: bs => if a = b then dropCommonSegs as bs else (a :: as, b :: bs)
  | as, bs => (as, bs)

/-- `path.relative(fromSegs, toSegs)` on resolved segment lists: climb out
of the remaining `from` segments, then descend into the `to` ones. -/
def relativeSegs (fromSegs toSegs : List String) : List String :=
  let (f, t) := dropCommonSegs fromSegs toSegs
  f.map (fun _ => "..") ++ t

/-- `FileStateTracker.normalizePath`: resolve against the workspace root,
normalise, take the path relative to the root, and join with forward
slashes (`path.sep` is already `/` on linux). -/
def normalizePath (filePath workspaceRoot : String) : String :=
  let fileSegs :=
    if isAbsolutePath filePath then normSegs (splitSlash filePath)
    else normSegs (splitSlash (workspaceRoot ++ "/" ++ filePath))
  let rootSegs := normSegs (splitSlash workspaceRoot)
  intercalateSlash (relativeSegs rootSegs fileSegs)

/-! ## File snapshot tracker (fileState.ts)

`FileStateTracker` owns a single `Map` from the *normalised path* to one
snapshot record; the holder (`agentId`) lives inside the record. -/

/-- A recorded file snapshot (`FileSnapshot` in fileState.ts). -/
structure FileSnapshot where
  hash : String
  agentId : String
  timestamp : Nat
  filePath : String
deriving DecidableEq

/-- The tracker's `snapshots: Map<string, FileSnapshot>`, as an
association list in insertion order. -/
abbrev SnapshotMap := List (String × FileSnapshot)

/-- JavaScript `Map.set`: replace in place when the key exists, append
otherwise. -/
def mapSet {α : Type} (m : List (String × α)) (k : String) (v : α) :
    List (String × α) :=
  if m.any (fun kv => kv.1 = k) then
    m.map (fun kv => if kv.1 = k then (k, v) else kv)
  else m ++ [(k, v)]

/-- JavaScript `Map.get` as an option. -/
def mapGet {α : Type} (m : List (String × α)) (k : String) : Option α :=
  (m.find? (fun kv => kv.1 = k)).map (·.2)

/-- `FileStateTracker.takeSnapshot`: hash the content and store the
snapshot under the normalised path (overwriting whatever holder had it). -/
def takeSnapshot (H : String → String) (st : SnapshotMap)
    (filePath content agentId workspaceRoot : String) (now : Nat) :
    String × SnapshotMap :=
  let normalizedPath := normalizePath filePath workspaceRoot
  let hash := sha256 H content
  (hash, mapSet st normalizedPath
    { hash := hash, agentId := agentId, timestamp := now, filePath := normalizedPath })

/-- `FileStateTracker.takeSnapshotFromDisk`: read the file (an absent
file rejects, surfaced as `none`), then `takeSnapshot`. -/
def takeSnapshotFromDisk (H : String → String) (fsRead : String → Option String)
    (st : SnapshotMap) (filePath agentId workspaceRoot : String) (now : Nat) :
    Option (String × SnapshotMap) :=
  match fsRead (resolveAbsPath workspaceRoot filePath) with
  | none => none
  | some content => some (takeSnapshot H st filePath content agentId workspaceRoot now)

/-- `FileStateTracker.verifySnapshot`: `true` when no snapshot exists for
the normalised path; otherwise re-read the file from disk (read failure
counts as stale) and compare digests. -/
def verifySnapshot (H : String → String) (fsRead : String → Option String)
    (st : SnapshotMap) (filePath agentId workspaceRoot : String) : Bool :=
  let normalizedPath := normalizePath filePath workspaceRoot
  match mapGet st normalizedPath with
  | none => true
  | some snapshot =>
    match fsRead (resolveAbsPath workspaceRoot filePath) with
    | none => false
    | some currentContent => sha256 H currentContent == snapshot.hash

/-- `FileStateTracker.releaseSnapshot`: delete only when the stored
snapshot belongs to this agent. -/
def releaseSnapshot (st : SnapshotMap) (filePath agentId workspaceRoot : String) :
    SnapshotMap :=
  let normalizedPath := normalizePath filePath workspaceRoot
  match mapGet st normalizedPath with
  | some snapshot =>
    if snapshot.agentId = agentId then st.filter (fun kv => kv.1 ≠ normalizedPath)
    else st
  | none => st

/-! ### Claim C1: per-holder verification baselines -/

/-- Snapshot state in which only holder `a2` has captured `src/a.ts`
(content `C0`); the digest primitive is instantiated to the identity. -/
def c1SnapState : SnapshotMap :=
  (takeSnapshot (fun s => s) [] "src/a.ts" "C0" "a2" "/ws" 0).2

/-- Disk on which `src/a.ts` has since been rewritten to `C1`. -/
def c1Disk : String → Option String :=
  fun p => if p = "/ws/src/a.ts" then some "C1" else none

/-- **C1 counterexample.** Holder `a1` has no snapshot recorded anywhere
in the store, yet `verifySnapshot("src/a.ts", "a1", "/ws")` returns
`false`, because the store is keyed by path alone and holder `a2`'s
capture of the same path (now stale on disk) is consulted instead. -/
theorem verifySnapshot_cross_holder_counterexample :
    (∀ kv ∈ c1SnapState, kv.2.agentId ≠ "a1") ∧
    verifySnapshot (fun s => s) c1Disk c1SnapState "src/a.ts" "a1" "/ws" = false := by
  decide

/-- **C1 (amended).** `verifySnapshot(p, h, root)` returns `true` exactly
when no snapshot at all is recorded for the normalised path `p` — the
holder argument plays no part in the lookup. -/
theorem verifySnapshot_true_of_no_snapshot_for_path (H : String → String)
    (fsRead : String → Option String) (st : SnapshotMap)
    (filePath agentId workspaceRoot : String)
    (h : mapGet st (normalizePath filePath workspaceRoot) = none) :
    verifySnapshot H fsRead st filePath agentId workspaceRoot = true := by
  simp [verifySnapshot, h]

/-- Witness for the amended C1 at a concrete input: the empty store. -/
theorem verifySnapshot_true_of_no_snapshot_for_path_witness :
    verifySnapshot (fun s => s) c1Disk [] "src/a.ts" "a1" "/ws" = true :=
  verifySnapshot_true_of_no_snapshot_for_path _ _ _ _ _ _ (by decide)

/-! ## The write gatekeeper (preHooks/writeFile.ts)

The collaborators it calls — `fileStateTracker.verifySnapshot` (which, as
a promise, may also reject), `findIntentById` / `getCachedIntent` from
the intent catalog, and `matchesAnyGlobPattern` from the path matcher —
are passed in as an environment, so the theorems hold for every
implementation of those collaborators. -/

/-- An intent from `.orchestration/active_intents.yaml`
(`ActiveIntent` in models/orchestration.ts): `owned_scope` may be absent. -/
structure ActiveIntent where
  name : String
  owned_scope : Option (List String)
deriving DecidableEq

/-- Outcome of awaiting `verifySnapshot`: a boolean, or a rejection. -/
inductive VerifyOutcome where
  | ok (valid : Bool)
  | threw
deriving DecidableEq

/-- The gatekeeper's collaborators. -/
structure PreHookEnv where
  /-- `fileStateTracker.verifySnapshot(filePath, agentId, workspaceRoot)`. -/
  verify : String → String → VerifyOutcome
  /-- `findIntentById(workspaceRoot, intentId)`. -/
  findIntentById : String → Option ActiveIntent
  /-- `getCachedIntent(intentId)`. -/
  getCachedIntent : String → Option ActiveIntent
  /-- `matchesAnyGlobPattern(filePath, scope, workspaceRoot)`. -/
  matchesAnyGlobPattern : String → List String → Bool

/-- `write_file` arguments. -/
structure WriteFilePreHookArgs where
  path : String
  content : String

/-- The gatekeeper's context; `intentId`, `ownedScope` and `agentId` are
optional. -/
structure WriteFilePreHookContext where
  intentId : Option String
  workspaceRoot : String
  ownedScope : Option (List String)
  agentId : Option String

/-- The gatekeeper's verdict. -/
structure WriteFilePreHookResult where
  blocked : Bool
  error : Option String
deriving DecidableEq

/-- JavaScript truthiness of an optional string (`undefined`, `null` and
`""` are falsy). -/
def jsTruthyStr : Option String → Bool
  | none => false
  | some s => !(s = "")

/-- An ASCII single quote, kept out of string literals. -/
def squote : String := String.singleton (Char.ofNat 39)

/-- `FileStateTracker.getStaleError`. -/
def staleError (filePath agentId : String) : String :=
  "Stale File: " ++ filePath ++
    " has been modified by another agent. Please re-read the file and merge changes before writing."

/-- The step-1 blocking message. -/
def noIntentError : String :=
  "You must cite a valid active Intent ID using select_active_intent before modifying files."

/-- The step-2 blocking message. -/
def intentNotFoundError (intentId : String) : String :=
  "Intent " ++ intentId ++ " not found in .orchestration/active_intents.yaml"

/-- The step-3 blocking message. -/
def noScopeError (intentId : String) : String :=
  "Intent " ++ intentId ++ " has no owned_scope defined. Cannot enforce scope boundaries."

/-- The step-4 blocking message. -/
def scopeViolationError (name intentId filePath : String) : String :=
  "Scope Violation: Intent " ++ squote ++ name ++ squote ++ " (" ++ intentId ++
    ") is not authorized to edit " ++ squote ++ filePath ++ squote ++
    ". Request scope expansion or select a different intent."

/-- Step 2's intent lookup: with a cached scope in the context, try the
catalog cache first and fall back to the file; otherwise load from file. -/
def lookupIntent (env : PreHookEnv) (ctx : WriteFilePreHookContext)
    (intentId : String) : Option ActiveIntent :=
  match ctx.ownedScope with
  | some _ =>
    match env.getCachedIntent intentId with
    | some intent => some intent
    | none => env.findIntentById intentId
  | none => env.findIntentById intentId

/-- `const scope = ownedScope ?? intent.owned_scope`. -/
def effectiveScope (ctx : WriteFilePreHookContext) (intent : ActiveIntent) :
    Option (List String) :=
  match ctx.ownedScope with
  | some s => some s
  | none => intent.owned_scope

/-- `writeFilePreHook` from preHooks/writeFile.ts: the write gatekeeper.
Steps in source order — optimistic snapshot check (a rejected `verify`
is caught and does not block), intent presence, intent existence,
non-empty owned scope, scope match. -/
def writeFilePreHook (env : PreHookEnv) (args : WriteFilePreHookArgs)
    (ctx : WriteFilePreHookContext) : WriteFilePreHookResult :=
  if jsTruthyStr ctx.agentId = true ∧
      env.verify args.path (ctx.agentId.getD "") = VerifyOutcome.ok false then
    { blocked := true,
      error := some (staleError args.path (ctx.agentId.getD "")) }
  else if jsTruthyStr ctx.intentId = false then
    { blocked := true, error := some noIntentError }
  else
    let intentId := ctx.intentId.getD ""
    match lookupIntent env ctx intentId with
    | none => { blocked := true, error := some (intentNotFoundError intentId) }
    | some intent =>
      match effectiveScope ctx intent with
      | none => { blocked := true, error := some (noScopeError intentId) }
      | some scope =>
        if scope.length = 0 then
          { blocked := true, error := some (noScopeError intentId) }
        else if env.matchesAnyGlobPattern args.path scope = false then
          { blocked := true,
            error := some (scopeViolationError intent.name intentId args.path) }
        else { blocked := false, error := none }

/-- **C4.** The gatekeeper's verdict is decided by the first failing step
of the fixed sequence — optimistic snapshot check (blocking on a false
verify, not blocking when verify rejects), intent presence, intent
existence, non-empty owned scope, scope match — and it returns
`{blocked: false}` exactly when all five steps pass. -/
theorem writeFilePreHook_first_failing_step (env : PreHookEnv)
    (args : WriteFilePreHookArgs) (ctx : WriteFilePreHookContext) :
    ((writeFilePreHook env args ctx).blocked = false ↔
      (¬(jsTruthyStr ctx.agentId = true ∧
          env.verify args.path (ctx.agentId.getD "") = VerifyOutcome.ok false) ∧
        jsTruthyStr ctx.intentId = true ∧
        ∃ intent, lookupIntent env ctx (ctx.intentId.getD "") = some intent ∧
          ∃ scope, effectiveScope ctx intent = some scope ∧ scope ≠ [] ∧
            env.matchesAnyGlobPattern args.path scope = true)) ∧
    ((jsTruthyStr ctx.agentId = true ∧
        env.verify args.path (ctx.agentId.getD "") = VerifyOutcome.ok false) →
      writeFilePreHook env args ctx =
        ⟨true, some (staleError args.path (ctx.agentId.getD ""))⟩) ∧
    (¬(jsTruthyStr ctx.agentId = true ∧
        env.verify args.path (ctx.agentId.getD "") = VerifyOutcome.ok false) →
      jsTruthyStr ctx.intentId = false →
      writeFilePreHook env args ctx = ⟨true, some noIntentError⟩) ∧
    (¬(jsTruthyStr ctx.agentId = true ∧
        env.verify args.path (ctx.agentId.getD "") = VerifyOutcome.ok false) →
      jsTruthyStr ctx.intentId = true →
      lookupIntent env ctx (ctx.intentId.getD "") = none →
      writeFilePreHook env args ctx =
        ⟨true, some (intentNotFoundError (ctx.intentId.getD ""))⟩) ∧
    (¬(jsTruthyStr ctx.agentId = true ∧
        env.verify args.path (ctx.agentId.getD "") = VerifyOutcome.ok false) →
      jsTruthyStr ctx.intentId = true →
      ∀ intent, lookupIntent env ctx (ctx.intentId.getD "") = some intent →
        (effectiveScope ctx intent = none ∨ effectiveScope ctx intent = some []) →
        writeFilePreHook env args ctx =
          ⟨true, some (noScopeError (ctx.intentId.getD ""))⟩) ∧
    (¬(jsTruthyStr ctx.agentId = true ∧
        env.verify args.path (ctx.agentId.getD "") = VerifyOutcome.ok false) →
      jsTruthyStr ctx.intentId = true →
      ∀ intent scope, lookupIntent env ctx (ctx.intentId.getD "") = some intent →
        effectiveScope ctx intent = some scope → scope ≠ [] →
        env.matchesAnyGlobPattern args.path scope = false →
        writeFilePreHook env args ctx =
          ⟨true, some (scopeViolationError intent.name (ctx.intentId.getD "") args.path)⟩) := by
  by_cases h1 : jsTruthyStr ctx.agentId = true ∧
      env.verify args.path (ctx.agentId.getD "") = VerifyOutcome.ok false
  · have hr : writeFilePreHook env args ctx =
        ⟨true, some (staleError args.path (ctx.agentId.getD ""))⟩ := by
      simp only [writeFilePreHook, if_pos h1]
    refine ⟨?_, ?_, ?_, ?_, ?_, ?_⟩
    · rw [hr]
      constructor
      · intro h; exact absurd h (by simp)
      · rintro ⟨hp1, -⟩; exact absurd h1 hp1
    · intro _; exact hr
    · intro hn; exact absurd h1 hn
    · intro hn; exact absurd h1 hn
    · intro hn; exact absurd h1 hn
    · intro hn; exact absurd h1 hn
  · by_cases h2 : jsTruthyStr ctx.intentId = true
    · have h2' : ¬(jsTruthyStr ctx.intentId = false) := by simp [h2]
      cases hli : lookupIntent env ctx (ctx.intentId.getD "") with
      | none =>
        have hr : writeFilePreHook env args ctx =
            ⟨true, some (intentNotFoundError (ctx.intentId.getD ""))⟩ := by
          simp only [writeFilePreHook, if_neg h1, if_neg h2', hli]
        refine ⟨?_, ?_, ?_, ?_, ?_, ?_⟩
        · rw [hr]
          constructor
          · intro h; exact absurd h (by simp)
          · rintro ⟨-, -, intent, hint, -⟩; exact absurd hint (by simp)
        · intro hp; exact absurd hp h1
        · intro _ hf; exact absurd (h2.symm.trans hf) (by decide)
        · intro _ _ _; exact hr
        · intro _ _ intent hint; exact absurd hint (by simp)
        · intro _ _ intent scope hint; exact absurd hint (by simp)
      | some intent =>
        cases hes : effectiveScope ctx intent with
        | none =>
          have hr : writeFilePreHook env args ctx =
              ⟨true, some (noScopeError (ctx.intentId.getD ""))⟩ := by
            simp only [writeFilePreHook, if_neg h1, if_neg h2', hli, hes]
          refine ⟨?_, ?_, ?_, ?_, ?_, ?_⟩
          · rw [hr]
            constructor
            · intro h; exact absurd h (by simp)
            · rintro ⟨-, -, intent2, hint2, scope, hsc, -⟩
              cases hint2
              rw [hes] at hsc
              exact absurd hsc (by simp)
          · intro hp; exact absurd hp h1
          · intro _ hf; exact absurd (h2.symm.trans hf) (by decide)
          · intro _ _ hnone; exact absurd hnone (by simp)
          · intro _ _ intent2 hint2 _
            cases hint2
            exact hr
          · intro _ _ intent2 scope2 hint2 hsc2 _ _
            cases hint2
            rw [hes] at hsc2
            exact absurd hsc2 (by simp)
        | some scope =>
          by_cases hlen : scope.length = 0
          · have hscnil : scope = [] := List.length_eq_zero.mp hlen
            have hr : writeFilePreHook env args ctx =
                ⟨true, some (noScopeError (ctx.intentId.getD ""))⟩ := by
              simp only [writeFilePreHook, if_neg h1, if_neg h2', hli, hes, if_pos hlen]
            refine ⟨?_, ?_, ?_, ?_, ?_, ?_⟩
            · rw [hr]
              constructor
              · intro h; exact absurd h (by simp)
              · rintro ⟨-, -, intent2, hint2, scope2, hsc2, hne2, -⟩
                cases hint2
                rw [hes] at hsc2
                injection hsc2 with he2
                exact absurd (he2 ▸ hscnil) hne2
            · intro hp; exact absurd hp h1
            · intro _ hf; exact absurd (h2.symm.trans hf) (by decide)
            · intro _ _ hnone; exact absurd hnone (by simp)
            · intro _ _ intent2 hint2 _
              cases hint2
              exact hr
            · intro _ _ intent2 scope2 hint2 hsc2 hne2 _
              cases hint2
              rw [hes] at hsc2
              injection hsc2 with he2
              exact absurd (he2 ▸ hscnil) hne2
          · by_cases hm : env.matchesAnyGlobPattern args.path scope = false
            · have hr : writeFilePreHook env args ctx =
                  ⟨true, some (scopeViolationError intent.name
                    (ctx.intentId.getD "") args.path)⟩ := by
                simp only [writeFilePreHook, if_neg h1, if_neg h2', hli, hes,
                  if_neg hlen, if_pos hm]
              refine ⟨?_, ?_, ?_, ?_, ?_, ?_⟩
              · rw [hr]
                constructor
                · intro h; exact absurd h (by simp)
                · rintro ⟨-, -, intent2, hint2, scope2, hsc2, -, hm2⟩
                  cases hint2
                  rw [hes] at hsc2
                  injection hsc2 with he2
                  subst he2
                  exact absurd (hm.symm.trans hm2) (by decide)
              · intro hp; exact absurd hp h1
              · intro _ hf; exact absurd (h2.symm.trans hf) (by decide)
              · intro _ _ hnone; exact absurd hnone (by simp)
              · intro _ _ intent2 hint2 hbad
                cases hint2
                rcases hbad with hb | hb
                · rw [hes] at hb; exact absurd hb (by simp)
                · rw [hes] at hb
                  injection hb with he2
                  exact absurd (List.length_eq_zero.mpr he2) hlen
              · intro _ _ intent2 scope2 hint2 hsc2 _ _
                cases hint2
                rw [hes] at hsc2
                cases hsc2
                exact hr
            · have hm' : env.matchesAnyGlobPattern args.path scope = true := by
                revert hm; cases env.matchesAnyGlobPattern args.path scope <;> simp
              have hr : writeFilePreHook env args ctx = ⟨false, none⟩ := by
                simp only [writeFilePreHook, if_neg h1, if_neg h2', hli, hes,
                  if_neg hlen, if_neg hm]
              refine ⟨?_, ?_, ?_, ?_, ?_, ?_⟩
              · rw [hr]
                refine ⟨fun _ => ⟨h1, h2, intent, rfl, scope, hes, ?_, hm'⟩, fun _ => rfl⟩
                exact fun hnil => hlen (List.length_eq_zero.mpr hnil)
              · intro hp; exact absurd hp h1
              · intro _ hf; exact absurd (h2.symm.trans hf) (by decide)
              · intro _ _ hnone; exact absurd hnone (by simp)
              · intro _ _ intent2 hint2 hbad
                cases hint2
                rcases hbad with hb | hb
                · rw [hes] at hb; exact absurd hb (by simp)
                · rw [hes] at hb
                  injection hb with he2
                  exact absurd (List.length_eq_zero.mpr he2) hlen
              · intro _ _ intent2 scope2 hint2 hsc2 _ hm2
                cases hint2
                rw [hes] at hsc2
                injection hsc2 with he2
                subst he2
                exact absurd (hm'.symm.trans hm2) (by decide)
    · have h2' : jsTruthyStr ctx.intentId = false := by
        revert h2; cases jsTruthyStr ctx.intentId <;> simp
      have hr : writeFilePreHook env args ctx = ⟨true, some noIntentError⟩ := by
        simp only [writeFilePreHook, if_neg h1, if_pos h2']
      refine ⟨?_, ?_, ?_, ?_, ?_, ?_⟩
      · rw [hr]
        constructor
        · intro h; exact absurd h (by simp)
        · rintro ⟨-, hf, -⟩; exact absurd hf h2
      · intro hp; exact absurd hp h1
      · intro _ _; exact hr
      · intro _ hf; exact absurd hf h2
      · intro _ hf; exact absurd hf h2
      · intro _ hf; exact absurd hf h2

/-- Concrete collaborators for the C4 witness. -/
def c4Env : PreHookEnv where
  verify := fun _ _ => VerifyOutcome.ok true
  findIntentById := fun _ => none
  getCachedIntent := fun _ => none
  matchesAnyGlobPattern := fun _ _ => false

/-- Witness for C4 at a concrete input: with no intent bound, the
gatekeeper blocks with the no-active-intent message (step 2 is the first
failing step). -/
theorem writeFilePreHook_first_failing_step_witness :
    writeFilePreHook c4Env ⟨"src/a.ts", "x"⟩ ⟨none, "/ws", none, none⟩ =
      ⟨true, some noIntentError⟩ :=
  (writeFilePreHook_first_failing_step c4Env ⟨"src/a.ts", "x"⟩
    ⟨none, "/ws", none, none⟩).2.2.1 (by decide) (by decide)

/-! ## Mutation classifier (mutationClassifier.ts) -/

/-- `MutationClass` from mutationClassifier.ts. -/
inductive MutationClass where
  | AST_REFACTOR
  | INTENT_EVOLUTION
  | BUG_FIX
  | DOCUMENTATION
deriving DecidableEq

/-- All-lowercase characters, for the case-insensitive `/i` regex tests. -/
def toLowerList (l : List Char) : List Char := l.map Char.toLower

def isPrefixList : List Char → List Char → Bool
  | [], _ => true
  | _ :: _, [] => false
  | a :: as, b :: bs => a = b && isPrefixList as bs

/-- Substring containment of `needle` in the list, as JavaScript
`String.prototype.includes` / an unanchored regex literal. -/
def containsList (needle : List Char) : List Char → Bool
  | [] => needle.isEmpty
  | c :: rest => isPrefixList needle (c :: rest) || containsList needle rest

/-- JavaScript `String.prototype.trim` (both ends; `\s` read as ASCII
whitespace, which covers every character these sources produce). -/
def trimList (l : List Char) : List Char :=
  ((l.dropWhile Char.isWhitespace).reverse.dropWhile Char.isWhitespace).reverse

/-- Scan for the next `*/`; `some rest` is everything after it. -/
def dropToBlockClose : List Char → Option (List Char)
  | [] => none
  | c :: rest =>
    match rest with
    | [] => none
    | c2 :: rest2 =>
      if c = '*' ∧ c2 = '/' then some rest2 else dropToBlockClose rest

/-- `code.replace(/\/\*[\s\S]*?\*\//g, "")` — each `/*` up to its nearest
`*/` is deleted (an unclosed `/*` is left in place), scanning left to
right.  The `Nat` argument is recursion fuel, always instantiated to the
input length, which every step strictly decreases below. -/
def stripBlockAux : Nat → List Char → List Char
  | 0, l => l
  | _ + 1, [] => []
  | fuel + 1, c :: rest =>
    match rest with
    | [] => [c]
    | c2 :: rest2 =>
      if c = '/' ∧ c2 = '*' then
        match dropToBlockClose rest2 with
        | some restAfter => stripBlockAux fuel restAfter
        | none => c :: rest
      else c :: stripBlockAux fuel rest

def stripBlockComments (l : List Char) : List Char :=
  stripBlockAux l.length l

/-- A line terminator, as recognised by the multiline `^`/`$` anchors
and excluded by `.` (in the ASCII fragment the sources produce; the
regexes additionally recognise U+2028/U+2029). -/
def isLineTerm (c : Char) : Bool := c = '\n' || c = '\r'

/-- Skip to the current line's terminator, which is kept — `$` is
zero-width, so a replacement never consumes it. -/
def dropToEOL : List Char → List Char
  | [] => []
  | c :: rest => if isLineTerm c then c :: rest else dropToEOL rest

/-- `.replace(/\/\/.*$/gm, "")`: from each `//` onwards, drop the rest of
the line (`.` stops at a line terminator); scanning resumes there.  The
`Nat` argument is recursion fuel, always instantiated to the input
length, which every step strictly decreases below. -/
def removeLineCommentsAux : Nat → List Char → List Char
  | 0, l => l
  | _ + 1, [] => []
  | fuel + 1, c :: rest =>
    match rest with
    | [] => [c]
    | c2 :: _ =>
      if c = '/' ∧ c2 = '/' then removeLineCommentsAux fuel (dropToEOL rest)
      else c :: removeLineCommentsAux fuel rest

def removeLineComments (l : List Char) : List Char :=
  removeLineCommentsAux l.length l

/-- Greedy `\s*` followed by `\*`, from a line start: since the
whitespace run is maximal, the `*` can only be its first non-whitespace
character — note the run may cross line terminators, absorbing preceding
blank lines.  Returns the characters after that `*`. -/
def wsThenStar (l : List Char) : Option (List Char) :=
  match l.dropWhile Char.isWhitespace with
  | '*' :: rest => some rest
  | _ => none

/-- `.replace(/^\s*\*.*$/gm, "")`: at each line start whose greedy
whitespace run (possibly spanning blank lines) reaches a `*`, delete
from that line start through the end of the `*`'s line; the scan resumes
at that line's terminator, which is never itself a line start.  The
`Bool` tracks whether the scanner stands at a line start; fuel as above. -/
def removeStarAux : Nat → Bool → List Char → List Char
  | 0, _, l => l
  | _ + 1, _, [] => []
  | fuel + 1, atStart, c :: rest =>
    match atStart, wsThenStar (c :: rest) with
    | true, some afterStar => removeStarAux fuel false (dropToEOL afterStar)
    | _, _ =>
      if isLineTerm c then c :: removeStarAux fuel true rest
      else c :: removeStarAux fuel false rest

def removeStarLines (l : List Char) : List Char :=
  removeStarAux l.length true l

/-- `removeComments` from mutationClassifier.ts: strip block comments,
then line comments, then doc-block asterisk lines, then trim. -/
def removeComments (code : String) : String :=
  String.mk (trimList (removeStarLines (removeLineComments (stripBlockComments code.data))))

/-- `isDocumentationChange`: the stripped sides agree while the originals
differ. -/
def isDocumentationChange (oldContent newContent : String) : Bool :=
  removeComments oldContent = removeComments newContent ∧ oldContent ≠ newContent

/-- The keywords of the three case-insensitive BUG_FIX regexes.  (In
`/fix(e[ds])?|bug|…/i` the group after `fix` is optional, so each
alternative matches exactly when its stem occurs as a substring.) -/
def bugFixKeywords : List String :=
  ["fix", "bug", "issue", "repair", "patch",
   "undefined", "null", "error", "exception", "crash",
   "should", "expected", "actual", "assert"]

/-- `isBugFix`: some bug-fix pattern matches the diff text. -/
def isBugFix (diff : String) : Bool :=
  bugFixKeywords.any fun kw =>
    containsList (toLowerList kw.data) (toLowerList diff.data)

/-- The diff text `"+" + addedLines + "\n-" + removedLines` built from
line-set differences, as in `classifyMutation`. -/
def diffText (oldContent newContent : String) : String :=
  let lines := splitNL newContent.data
  let oldLines := splitNL oldContent.data
  let added := joinNL (lines.filter fun l => !(oldLines.contains l))
  let removed := joinNL (oldLines.filter fun l => !(lines.contains l))
  String.mk ('+' :: (added ++ '\n' :: '-' :: removed))

/-- `classifyMutation` from mutationClassifier.ts.  The JavaScript float
comparison `sizeChange > 0.2` is rendered over `ℚ`: the operand lengths
are exact in doubles and, for any string length an engine can represent,
the quotient is far enough from `0.2` that the rounded comparison agrees
with the exact one. -/
def classifyMutation (oldContent newContent : String) : MutationClass :=
  if oldContent = newContent then .DOCUMENTATION
  else if isDocumentationChange oldContent newContent then .DOCUMENTATION
  else if isBugFix (diffText oldContent newContent) then .BUG_FIX
  else
    let oldLen : ℚ := if oldContent.length = 0 then 1 else (oldContent.length : ℚ)
    let sizeChange : ℚ := |(newContent.length : ℚ) - (oldContent.length : ℚ)| / oldLen
    if sizeChange > 0.2 then .INTENT_EVOLUTION
    else .AST_REFACTOR

/-- `MutationClass` names accepted from tool arguments. -/
def parseMutationClass (s : String) : Option MutationClass :=
  if s = "AST_REFACTOR" then some .AST_REFACTOR
  else if s = "INTENT_EVOLUTION" then some .INTENT_EVOLUTION
  else if s = "BUG_FIX" then some .BUG_FIX
  else if s = "DOCUMENTATION" then some .DOCUMENTATION
  else none

/-- `getMutationClass`: a truthy, valid explicit class wins (valid names
are never empty, so validity subsumes truthiness); otherwise classify. -/
def getMutationClass (explicitClass : Option String)
    (oldContent newContent : String) : MutationClass :=
  match explicitClass.bind parseMutationClass with
  | some mc => mc
  | none => classifyMutation oldContent newContent

/-- **C8.** When the contents differ, stripping comments does not make
them equal, and no bug-fix regex matches the constructed diff text, the
classifier returns INTENT_EVOLUTION exactly when
`|len(new) − len(old)| / max(len(old), 1) > 0.20`, and AST_REFACTOR
otherwise. -/
theorem classifyMutation_size_threshold (oldContent newContent : String)
    (hne : oldContent ≠ newContent)
    (hstrip : removeComments oldContent ≠ removeComments newContent)
    (hbug : isBugFix (diffText oldContent newContent) = false) :
    classifyMutation oldContent newContent =
      (if |(newContent.length : ℚ) - (oldContent.length : ℚ)| /
          ((max oldContent.length 1 : Nat) : ℚ) > 0.2
        then MutationClass.INTENT_EVOLUTION
        else MutationClass.AST_REFACTOR) := by
  have hdoc : isDocumentationChange oldContent newContent = false := by
    simp [isDocumentationChange, hstrip]
  have hmax : ((max oldContent.length 1 : Nat) : ℚ) =
      (if oldContent.length = 0 then (1 : ℚ) else (oldContent.length : ℚ)) := by
    by_cases h0 : oldContent.length = 0
    · simp [h0]
    · have h1 : 1 ≤ oldContent.length := Nat.one_le_iff_ne_zero.mpr h0
      simp [h0, Nat.max_eq_left h1]
  simp only [classifyMutation, if_neg hne, hdoc, Bool.false_eq_true, if_false,
    hbug, hmax]

/-- Witness for C8 at a concrete input (`"aa"` → `"zzz"`): the
hypotheses hold and the classifier lands in the size-threshold branch. -/
theorem classifyMutation_size_threshold_witness :
    classifyMutation "aa" "zzz" =
      (if |(("zzz".length : ℚ)) - ("aa".length : ℚ)| /
          ((max "aa".length 1 : Nat) : ℚ) > 0.2
        then MutationClass.INTENT_EVOLUTION
        else MutationClass.AST_REFACTOR) :=
  classifyMutation_size_threshold "aa" "zzz" (by decide) (by decide) (by decide)

/-! ## Dynamic JSON values and the trace validators (models/trace.ts)

`isValidTraceEntry` receives `unknown` values parsed from JSONL, so it is
embedded over a JSON value type; the `typeof`/`Array.isArray` checks of
the source become constructor matches. -/

/-- A JSON value (JavaScript numbers appearing in trace entries are
integers). -/
inductive JVal where
  | null
  | bool (b : Bool)
  | num (n : Int)
  | str (s : String)
  | arr (elems : List JVal)
  | obj (fields : List (String × JVal))

/-- Property access `o.k` on a JSON value: `none` is `undefined` (also
for arrays and primitives, whose named properties here are absent). -/
def getField : JVal → String → Option JVal
  | .obj fields, k => (fields.find? (fun f => f.1 = k)).map (·.2)
  | _, _ => none

/-- JavaScript falsiness of a JSON value. -/
def jsFalsyJ : JVal → Bool
  | .null => true
  | .bool b => !b
  | .num n => n == 0
  | .str s => s = ""
  | _ => false

/-- `MUTATION_CLASSES` as strings. -/
def mutationClassStrings : List String :=
  ["AST_REFACTOR", "INTENT_EVOLUTION", "BUG_FIX", "DOCUMENTATION"]

/-- `isValidTraceRange`: an object whose `start_line`/`end_line` are
numbers and whose `content_hash` is a string.  (A non-object — including
an array, whose named properties are absent — fails.) -/
def isValidTraceRange (r : JVal) : Bool :=
  (match getField r "start_line" with | some (.num _) => true | _ => false) &&
  (match getField r "end_line" with | some (.num _) => true | _ => false) &&
  (match getField r "content_hash" with | some (.str _) => true | _ => false)

/-- `isValidTraceContributor`. -/
def isValidTraceContributor (c : JVal) : Bool :=
  (match getField c "entity_type" with
    | some (.str s) => s = "AI" || s = "HUMAN"
    | _ => false) &&
  (match getField c "model_identifier" with
    | none => true
    | some (.str _) => true
    | some _ => false)

/-- `isValidTraceRelated`. -/
def isValidTraceRelated (r : JVal) : Bool :=
  (match getField r "type" with
    | some (.str t) => t ∈ ["specification", "requirement", "issue", "task"]
    | _ => false) &&
  (match getField r "value" with | some (.str _) => true | _ => false)

/-- `isValidTraceConversation`. -/
def isValidTraceConversation (c : JVal) : Bool :=
  (match getField c "url" with | some (.str _) => true | _ => false) &&
  (match getField c "ranges" with
    | some (.arr rs) => rs.all isValidTraceRange
    | _ => false) &&
  (match getField c "related" with
    | some (.arr rel) => rel.all isValidTraceRelated
    | _ => false) &&
  (match getField c "contributor" with
    | some contributor => isValidTraceContributor contributor
    | none => false)

/-- `isValidTraceFile`. -/
def isValidTraceFile (f : JVal) : Bool :=
  (match getField f "relative_path" with | some (.str _) => true | _ => false) &&
  (match getField f "conversations" with
    | some (.arr cs) => cs.all isValidTraceConversation
    | _ => false)

/-- `isValidTraceEntry` from models/trace.ts: structural validation only
— string `id` and `timestamp`, an object `vcs` with a string
`revision_id`, an array `files` of valid files, and an absent or known
`mutation_class`. -/
def isValidTraceEntry (entry : JVal) : Bool :=
  (match getField entry "id" with | some (.str _) => true | _ => false) &&
  (match getField entry "timestamp" with | some (.str _) => true | _ => false) &&
  (match getField entry "vcs" with
    | some vcs =>
      !(jsFalsyJ vcs) &&
        (match getField vcs "revision_id" with | some (.str _) => true | _ => false)
    | none => false) &&
  (match getField entry "files" with
    | some (.arr files) => files.all isValidTraceFile
    | _ => false) &&
  (match getField entry "mutation_class" with
    | none => true
    | some (.str s) => s ∈ mutationClassStrings
    | some _ => false)

/-! ## Trace storage (traceStorage.ts)

The JSONL file `.orchestration/agent_trace.jsonl` is modelled as the
list of its newline-terminated lines (`fs.appendFile` of
`JSON.stringify(entry) + "\n"` appends exactly one line), or as absent,
or as unreadable for a non-`ENOENT` reason.  `JSON.stringify` /
`JSON.parse` are external primitives, passed in as a codec. -/

/-- The on-disk state of the trace log. -/
inductive DiskFile where
  | absent
  | denied
  | lines (ls : List String)
deriving DecidableEq

/-- `appendToTraceLog`: throws (`Except.error`) on an invalid entry,
otherwise appends one serialised line (creating the file when absent); an
I/O failure of the underlying append is rethrown. -/
def appendToTraceLog (stringifyJ : JVal → String) (df : DiskFile)
    (entry : JVal) : Except Unit DiskFile :=
  if isValidTraceEntry entry = false then Except.error ()
  else
    match df with
    | .denied => Except.error ()
    | .absent => Except.ok (.lines [stringifyJ entry])
    | .lines ls => Except.ok (.lines (ls ++ [stringifyJ entry]))

/-- One pass of `readTraceLog` over the file's lines: drop
whitespace-only lines, `JSON.parse` each (skipping failures), keep the
valid entries, in file order. -/
def readTraceLines (parseJ : String → Option JVal) (ls : List String) :
    List JVal :=
  ((ls.filter fun l => !(trimList l.data).isEmpty).filterMap parseJ).filter
    fun e => isValidTraceEntry e

/-- `readTraceLog`: `[]` when the file does not exist (`ENOENT`); any
other read failure propagates; otherwise parse line by line. -/
def readTraceLog (parseJ : String → Option JVal) (df : DiskFile) :
    Except Unit (List JVal) :=
  match df with
  | .absent => Except.ok []
  | .denied => Except.error ()
  | .lines ls => Except.ok (readTraceLines parseJ ls)

/-! ### Claim C3: what the ledger validator actually rejects -/

/-- A trace entry with an **empty** `files` list. -/
def c3EntryEmptyFiles : JVal :=
  .obj [("id", .str "x"), ("timestamp", .str "2026-02-21T12:00:00.000Z"),
        ("vcs", .obj [("revision_id", .str "unknown")]),
        ("files", .arr [])]

/-- A trace entry whose single range has `start_line = 0`,
`end_line < start_line`, and a `content_hash` that is not
`sha256:` + 64 lowercase hex characters. -/
def c3EntryBadRange : JVal :=
  .obj [("id", .str "x"), ("timestamp", .str "2026-02-21T12:00:00.000Z"),
        ("vcs", .obj [("revision_id", .str "unknown")]),
        ("files", .arr [
          .obj [("relative_path", .str "src/a.ts"),
                ("conversations", .arr [
                  .obj [("url", .str "session-1"),
                        ("contributor", .obj [("entity_type", .str "AI")]),
                        ("ranges", .arr [
                          .obj [("start_line", .num 0), ("end_line", .num (-1)),
                                ("content_hash", .str "zzz")]]),
                        ("related", .arr [])]])]])]

/-- **C3 counterexample.** `appendToTraceLog` does **not** raise on an
entry with empty `files`, nor on one whose range has `start_line = 0`,
`end_line < start_line` and a malformed `content_hash`: both pass
validation and are appended. -/
theorem appendToTraceLog_schema_counterexample :
    isValidTraceEntry c3EntryEmptyFiles = true ∧
    appendToTraceLog (fun _ => "e") .absent c3EntryEmptyFiles =
      Except.ok (.lines ["e"]) ∧
    isValidTraceEntry c3EntryBadRange = true ∧
    appendToTraceLog (fun _ => "e") .absent c3EntryBadRange =
      Except.ok (.lines ["e"]) :=
  ⟨rfl, rfl, rfl, rfl⟩

/-- **C3 (amended).** `appendToTraceLog` raises exactly when the
structural validation (`isValidTraceEntry`) fails; the §3 invariants on
non-empty `files`, range ordering and `sha256:`-prefixed hashes are not
checked. -/
theorem appendToTraceLog_error_iff_invalid (stringifyJ : JVal → String)
    (ls : List String) (entry : JVal) :
    appendToTraceLog stringifyJ (.lines ls) entry =
      (if isValidTraceEntry entry then
        Except.ok (.lines (ls ++ [stringifyJ entry]))
      else Except.error ()) := by
  unfold appendToTraceLog
  cases h : isValidTraceEntry entry <;> simp [h]

/-! ### Claim C7: append then read -/

/-- **C7.** For a serialisation of the entry that parses back to it and
is not whitespace-only (as `JSON.stringify` output always is), appending
a valid entry to any trace file and reading back yields the previously
stored valid entries, in file order, with the new entry last. -/
theorem appendToTraceLog_then_read (stringifyJ : JVal → String)
    (parseJ : String → Option JVal) (ls : List String) (entry : JVal)
    (hval : isValidTraceEntry entry = true)
    (hround : parseJ (stringifyJ entry) = some entry)
    (hnws : (trimList (stringifyJ entry).data).isEmpty = false) :
    appendToTraceLog stringifyJ (.lines ls) entry =
      Except.ok (.lines (ls ++ [stringifyJ entry])) ∧
    readTraceLog parseJ (.lines (ls ++ [stringifyJ entry])) =
      Except.ok (readTraceLines parseJ ls ++ [entry]) := by
  constructor
  · rw [appendToTraceLog_error_iff_invalid, if_pos hval]
  · simp only [readTraceLog, readTraceLines, List.filter_append,
      List.filterMap_append, Except.ok.injEq]
    rw [List.filter_cons]
    simp only [hnws, Bool.not_false, if_pos]
    rw [List.filterMap_cons, hround]
    simp [List.filter_cons, hval]

/-- A well-formed concrete entry for the C7 witness. -/
def c7Entry : JVal :=
  .obj [("id", .str "a"), ("timestamp", .str "2026-02-21T12:00:00.000Z"),
        ("vcs", .obj [("revision_id", .str "abc123")]),
        ("files", .arr [
          .obj [("relative_path", .str "src/example.ts"),
                ("conversations", .arr [])]]),
        ("mutation_class", .str "AST_REFACTOR")]

/-- The C7 witness codec: serialise to `"x"`, parse `"x"` back. -/
def c7Stringify : JVal → String := fun _ => "x"

def c7Parse : String → Option JVal := fun s => if s = "x" then some c7Entry else none

/-- Witness for C7 at a concrete input: appending `c7Entry` to the empty
log and reading back returns exactly `[c7Entry]`. -/
theorem appendToTraceLog_then_read_witness :
    appendToTraceLog c7Stringify (.lines []) c7Entry =
      Except.ok (.lines ["x"]) ∧
    readTraceLog c7Parse (.lines ["x"]) = Except.ok [c7Entry] := by
  have h := appendToTraceLog_then_read c7Stringify c7Parse [] c7Entry
    (by decide) rfl (by decide)
  simpa [c7Stringify, readTraceLines] using h

/-! ### Claim C10: reading a missing or unreadable trace log -/

/-- **C10.** When `.orchestration/agent_trace.jsonl` does not exist,
`readTraceLog` returns the empty list; any other read failure is
propagated to the caller. -/
theorem readTraceLog_absent_and_denied (parseJ : String → Option JVal) :
    readTraceLog parseJ .absent = Except.ok [] ∧
    readTraceLog parseJ .denied = Except.error () :=
  ⟨rfl, rfl⟩

/-! ## Typed trace entries (the TypeScript interfaces of models/trace.ts)

The post-write recorder builds entries through these interfaces; their
JSON image (what `JSON.stringify` serialises) is given by `…ToJVal`. -/

inductive EntityType where
  | AI
  | HUMAN
deriving DecidableEq

inductive RelatedType where
  | specification
  | requirement
  | issue
  | task
deriving DecidableEq

structure TraceRange where
  start_line : Int
  end_line : Int
  content_hash : String
deriving DecidableEq

structure TraceContributor where
  entity_type : EntityType
  model_identifier : Option String
deriving DecidableEq

structure TraceRelated where
  type : RelatedType
  value : String
deriving DecidableEq

structure TraceConversation where
  url : String
  contributor : TraceContributor
  ranges : List TraceRange
  related : List TraceRelated
deriving DecidableEq

structure TraceFile where
  relative_path : String
  conversations : List TraceConversation
deriving DecidableEq

structure TraceVcs where
  revision_id : String
deriving DecidableEq

structure TraceEntry where
  id : String
  timestamp : String
  vcs : TraceVcs
  files : List TraceFile
  mutation_class : Option MutationClass
deriving DecidableEq

def entityTypeToString : EntityType → String
  | .AI => "AI"
  | .HUMAN => "HUMAN"

def relatedTypeToString : RelatedType → String
  | .specification => "specification"
  | .requirement => "requirement"
  | .issue => "issue"
  | .task => "task"

def mutationClassToString : MutationClass → String
  | .AST_REFACTOR => "AST_REFACTOR"
  | .INTENT_EVOLUTION => "INTENT_EVOLUTION"
  | .BUG_FIX => "BUG_FIX"
  | .DOCUMENTATION => "DOCUMENTATION"

def traceRangeToJVal (r : TraceRange) : JVal :=
  .obj [("start_line", .num r.start_line), ("end_line", .num r.end_line),
        ("content_hash", .str r.content_hash)]

def traceContributorToJVal (c : TraceContributor) : JVal :=
  .obj (("entity_type", .str (entityTypeToString c.entity_type)) ::
    (match c.model_identifier with
      | some m => [("model_identifier", JVal.str m)]
      | none => []))

def traceRelatedToJVal (r : TraceRelated) : JVal :=
  .obj [("type", .str (relatedTypeToString r.type)), ("value", .str r.value)]

def traceConversationToJVal (c : TraceConversation) : JVal :=
  .obj [("url", .str c.url),
        ("contributor", traceContributorToJVal c.contributor),
        ("ranges", .arr (c.ranges.map traceRangeToJVal)),
        ("related", .arr (c.related.map traceRelatedToJVal))]

def traceFileToJVal (f : TraceFile) : JVal :=
  .obj [("relative_path", .str f.relative_path),
        ("conversations", .arr (f.conversations.map traceConversationToJVal))]

def traceEntryToJVal (e : TraceEntry) : JVal :=
  .obj ([("id", .str e.id), ("timestamp", .str e.timestamp),
         ("vcs", .obj [("revision_id", .str e.vcs.revision_id)]),
         ("files", .arr (e.files.map traceFileToJVal))] ++
    (match e.mutation_class with
      | some mc => [("mutation_class", JVal.str (mutationClassToString mc))]
      | none => []))

/-- Every well-typed trace range passes the dynamic range validation. -/
theorem isValidTraceRange_toJVal (r : TraceRange) :
    isValidTraceRange (traceRangeToJVal r) = true := rfl

theorem isValidTraceContributor_toJVal (c : TraceContributor) :
    isValidTraceContributor (traceContributorToJVal c) = true := by
  obtain ⟨et, mid⟩ := c
  cases et <;> cases mid <;> rfl

theorem isValidTraceRelated_toJVal (r : TraceRelated) :
    isValidTraceRelated (traceRelatedToJVal r) = true := by
  obtain ⟨t, v⟩ := r
  cases t <;> rfl

theorem isValidTraceConversation_toJVal (c : TraceConversation) :
    isValidTraceConversation (traceConversationToJVal c) = true := by
  obtain ⟨url, contributor, ranges, related⟩ := c
  simp only [isValidTraceConversation, traceConversationToJVal, getField,
    List.find?, Bool.and_eq_true]
  refine ⟨⟨⟨rfl, ?_⟩, ?_⟩, ?_⟩
  · show (List.map traceRangeToJVal ranges).all isValidTraceRange = true
    simp only [List.all_eq_true]
    intro v hv
    simp only [List.mem_map] at hv
    obtain ⟨r, _, hr⟩ := hv
    exact hr ▸ isValidTraceRange_toJVal r
  · show (List.map traceRelatedToJVal related).all isValidTraceRelated = true
    simp only [List.all_eq_true]
    intro v hv
    simp only [List.mem_map] at hv
    obtain ⟨r, _, hr⟩ := hv
    exact hr ▸ isValidTraceRelated_toJVal r
  · exact isValidTraceContributor_toJVal contributor

theorem isValidTraceFile_toJVal (f : TraceFile) :
    isValidTraceFile (traceFileToJVal f) = true := by
  obtain ⟨p, convs⟩ := f
  simp only [isValidTraceFile, traceFileToJVal, getField, List.find?,
    Bool.and_eq_true]
  refine ⟨rfl, ?_⟩
  show (List.map traceConversationToJVal convs).all isValidTraceConversation = true
  simp only [List.all_eq_true]
  intro v hv
  simp only [List.mem_map] at hv
  obtain ⟨c, _, hc⟩ := hv
  exact hc ▸ isValidTraceConversation_toJVal c

/-- Every well-typed trace entry passes `isValidTraceEntry` — the
dynamic validation constrains nothing beyond the static shape. -/
theorem isValidTraceEntry_toJVal (e : TraceEntry) :
    isValidTraceEntry (traceEntryToJVal e) = true := by
  obtain ⟨id, ts, ⟨rev⟩, files, mc⟩ := e
  cases mc with
  | none =>
    simp only [isValidTraceEntry, traceEntryToJVal, getField, List.find?,
      List.append_nil, Bool.and_eq_true]
    refine ⟨⟨⟨⟨rfl, rfl⟩, rfl⟩, ?_⟩, rfl⟩
    show (List.map traceFileToJVal files).all isValidTraceFile = true
    simp only [List.all_eq_true]
    intro v hv
    simp only [List.mem_map] at hv
    obtain ⟨f, _, hf⟩ := hv
    exact hf ▸ isValidTraceFile_toJVal f
  | some mc =>
    simp only [isValidTraceEntry, traceEntryToJVal, getField, List.find?,
      Bool.and_eq_true]
    refine ⟨⟨⟨⟨rfl, rfl⟩, rfl⟩, ?_⟩, ?_⟩
    · show (List.map traceFileToJVal files).all isValidTraceFile = true
      simp only [List.all_eq_true]
      intro v hv
      simp only [List.mem_map] at hv
      obtain ⟨f, _, hf⟩ := hv
      exact hf ▸ isValidTraceFile_toJVal f
    · cases mc <;> rfl

/-! ## The post-write recorder (postHooks/writeFile.ts)

The UUID, clock, and current VCS revision are environment inputs; the
function below returns the trace entry handed to `appendToTraceLog`
(`none` when the hook is a no-op, or when the entry would fail
validation, whose raised error the hook's outer catch swallows — leaving
nothing appended). -/

structure WriteFilePostHookArgs where
  path : String
  content : String
  mutation_class : Option String

structure WriteFilePostHookContext where
  intentId : Option String
  workspaceRoot : String
  sessionId : Option String
  modelIdentifier : Option String
  oldContent : Option String
  agentId : Option String

structure PostHookEnv where
  /-- The raw digest primitive behind `computeContentHash`. -/
  H : String → String
  /-- `uuidv4()`. -/
  uuid : String
  /-- `new Date().toISOString()`. -/
  nowISO : String
  /-- `Date.now()`. -/
  nowMs : Nat
  /-- `getCurrentRevision(workspaceRoot)` (never throws; `"unknown"`
  outside a repository). -/
  revision : String

/-- The trace entry appended by `writeFilePostHook`. -/
def writeFilePostHookTrace (env : PostHookEnv) (args : WriteFilePostHookArgs)
    (ctx : WriteFilePostHookContext) : Option TraceEntry :=
  if jsTruthyStr ctx.intentId = false then none
  else
    let intentId := ctx.intentId.getD ""
    let mutationClass : MutationClass :=
      match args.mutation_class.bind parseMutationClass with
      | some mc => mc
      | none =>
        match ctx.oldContent with
        | some oldContent => getMutationClass args.mutation_class oldContent args.content
        | none => .AST_REFACTOR
    let lineCount := max 1 (splitNL args.content.data).length
    let contentHash :=
      "sha256:" ++ computeContentHash env.H args.content (some 1) (some lineCount)
    let entry : TraceEntry :=
      { id := env.uuid
        timestamp := env.nowISO
        vcs := { revision_id := env.revision }
        files := [{ relative_path := args.path
                    conversations := [{
                      url := ctx.sessionId.getD ("session://" ++ toString env.nowMs)
                      contributor := { entity_type := .AI
                                       model_identifier :=
                                         some (ctx.modelIdentifier.getD "unknown") }
                      ranges := [{ start_line := 1, end_line := (lineCount : Int),
                                   content_hash := contentHash }]
                      related := [{ type := .specification, value := intentId }] }] }]
        mutation_class := some mutationClass }
    if isValidTraceEntry (traceEntryToJVal entry) then some entry else none

/-! ### Claim C2: the S1 happy-write ledger entry -/

/-- First recorded range of the produced entry, if any. -/
def firstRangeOf (e? : Option TraceEntry) : Option TraceRange :=
  e?.bind fun e =>
    (e.files.head?.bind fun f => f.conversations.head?).bind fun c => c.ranges.head?

/-- The S1 environment with the digest primitive instantiated to the
identity. -/
def c2Env : PostHookEnv :=
  { H := fun s => s, uuid := "u", nowISO := "2026-02-21T12:00:00.000Z",
    nowMs := 0, revision := "unknown" }

def c2Args : WriteFilePostHookArgs :=
  { path := "src/a.ts", content := "x = 2\n", mutation_class := none }

def c2Ctx : WriteFilePostHookContext :=
  { intentId := some "INT-001", workspaceRoot := "/ws", sessionId := some "s",
    modelIdentifier := some "m", oldContent := none, agentId := none }

/-- **C2 counterexample.** In scenario S1 the recorded range is
`{1, 2, "sha256:" + digest("x = 2\n")}` — the line count of
`"x = 2\n"` is `max(1, 2) = 2` because the trailing newline yields a
final empty line — not `{1, 1, "sha256:" + digest("x = 2")}` as claimed,
and the two digests hash different strings. -/
theorem writeFilePostHook_s1_range_counterexample :
    firstRangeOf (writeFilePostHookTrace c2Env c2Args c2Ctx) =
      some { start_line := 1, end_line := 2,
             content_hash := "sha256:" ++ sha256 (fun s => s) "x = 2\n" } ∧
    (some { start_line := 1, end_line := 2,
            content_hash := "sha256:" ++ sha256 (fun s => s) "x = 2\n" } ≠
      some ({ start_line := 1, end_line := 1,
              content_hash := "sha256:" ++ sha256 (fun s => s) "x = 2" } : TraceRange)) := by
  constructor
  · rfl
  · decide

/-- **C2 (amended).** In scenario S1 (content `"x = 2\n"` under intent
`INT-001`), for every digest primitive and environment, the recorder
appends exactly one entry with `files[0].relative_path = "src/a.ts"`, a
single range `{1, 2, "sha256:" + digest("x = 2\n")}` — the line count is
`max(1, split("\n").length) = 2` and the range hash is the digest of the
full written content — and `related = [{specification, "INT-001"}]`. -/
theorem writeFilePostHook_s1_entry (H : String → String)
    (uuid nowISO revision sessionId modelId : String) (nowMs : Nat)
    (oldContent : String) (agentId : Option String) :
    writeFilePostHookTrace
      { H := H, uuid := uuid, nowISO := nowISO, nowMs := nowMs,
        revision := revision }
      { path := "src/a.ts", content := "x = 2\n", mutation_class := none }
      { intentId := some "INT-001", workspaceRoot := "/ws",
        sessionId := some sessionId, modelIdentifier := some modelId,
        oldContent := some oldContent, agentId := agentId } =
      some
        { id := uuid
          timestamp := nowISO
          vcs := { revision_id := revision }
          files := [{ relative_path := "src/a.ts"
                      conversations := [{
                        url := sessionId
                        contributor := { entity_type := .AI,
                                         model_identifier := some modelId }
                        ranges := [{ start_line := 1, end_line := 2,
                                     content_hash := "sha256:" ++ sha256 H "x = 2\n" }]
                        related := [{ type := .specification, value := "INT-001" }] }] }]
          mutation_class :=
            some (getMutationClass none oldContent "x = 2\n") } := by
  dsimp only [writeFilePostHookTrace]
  rw [if_neg (by decide)]
  rw [if_pos (isValidTraceEntry_toJVal _)]
  rfl

/-! ## Lessons store (claudeManager.ts) and the record_lesson tool
(recordLessonTool.ts)

The lessons file `.orchestration/CLAUDE.md` is modelled as its content
(`none` when absent); the minute-precision timestamp is an input. -/

/-- JavaScript `s.split(sep)` for a multi-character separator; the `Nat`
argument is recursion fuel, instantiated to the input length (every step
consumes at least one character for non-empty `sep`). -/
def splitSubAux (sep : List Char) : Nat → List Char → List (List Char)
  | _, [] => [[]]
  | 0, l => [l]
  | fuel + 1, c :: rest =>
    if isPrefixList sep (c :: rest) then
      [] :: splitSubAux sep fuel ((c :: rest).drop sep.length)
    else
      match splitSubAux sep fuel rest with
      | [] => [[c]]
      | h :: t => (c :: h) :: t

/-- `s.split(sep)` on strings. -/
def splitOnStr (sep s : String) : List String :=
  (splitSubAux sep.data s.data.length s.data).map String.mk

/-- The `LessonCategory` union type of claudeManager.ts. -/
def lessonCategories : List String :=
  ["ARCHITECTURE", "TESTING", "LINTER", "BUILD", "USER_FEEDBACK",
   "STYLE", "PERFORMANCE", "SECURITY", "GENERAL"]

/-- `validCategories` from `RecordLessonTool.execute` — the list the tool
actually accepts. -/
def validCategories : List String :=
  ["ARCHITECTURE", "TESTING", "LINTER", "STYLE", "PERFORMANCE", "SECURITY",
   "GENERAL"]

/-- `formatLesson` with the minute-precision timestamp as an input. -/
def formatLesson (category timestamp lesson : String) : String :=
  "## [" ++ category ++ "] " ++ timestamp ++ "\n" ++ lesson ++ "\n---\n"

/-- `readClaudeBrain`: the file content, or `""` when the file does not
exist. -/
def readClaudeBrain (file : Option String) : String := file.getD ""

/-- `appendToClaudeBrain`: `fs.appendFile` creates the file when absent. -/
def appendToClaudeBrain (file : Option String) (content : String) :
    Option String :=
  match file with
  | some existing => some (existing ++ content)
  | none => some content

/-- `recordLesson` from claudeManager.ts: skip when the trimmed lesson
occurs verbatim in the last five `---`-separated sections, else append
the formatted lesson; returns whether it recorded, with the new file
state. -/
def recordLesson (file : Option String) (timestamp category lesson : String) :
    Bool × Option String :=
  let existing := readClaudeBrain file
  let isDup :=
    if existing ≠ "" then
      let sections := (splitOnStr "---" existing).filter
        fun s => !(trimList s.data).isEmpty
      let recentLessons :=
        String.mk (joinNL ((sections.drop (sections.length - 5)).map String.data))
      containsList (trimList lesson.data) recentLessons.data
    else false
  if isDup then (false, file)
  else (true, appendToClaudeBrain file (formatLesson category timestamp lesson))

/-- The observable outcome of `RecordLessonTool.execute`. -/
inductive RecordLessonOutcome where
  | missingParam
  | invalidCategory
  | recorded (category : String)
  | duplicateSkipped
deriving DecidableEq

structure RecordLessonResult where
  outcome : RecordLessonOutcome
  file : Option String
  consecutiveMistakeCount : Nat
deriving DecidableEq

/-- `RecordLessonTool.execute`: missing (empty) parameters and categories
outside `validCategories` are tool errors that bump the mistake counter;
otherwise `recordLesson` decides between the recorded and the
duplicate-skipped result. -/
def recordLessonExecute (file : Option String) (timestamp : String)
    (category lesson : String) (consecutiveMistakeCount : Nat) :
    RecordLessonResult :=
  if category = "" ∨ lesson = "" then
    ⟨.missingParam, file, consecutiveMistakeCount + 1⟩
  else if ¬ (category ∈ validCategories) then
    ⟨.invalidCategory, file, consecutiveMistakeCount + 1⟩
  else
    match recordLesson file timestamp category lesson with
    | (true, file') => ⟨.recorded category, file', consecutiveMistakeCount⟩
    | (false, file') => ⟨.duplicateSkipped, file', consecutiveMistakeCount⟩

/-- **C5 counterexample.** `BUILD` belongs to the `LessonCategory`
enumeration (as does `USER_FEEDBACK`), yet the tool rejects it with the
invalid-category error and increments the mistake counter. -/
theorem recordLessonExecute_build_counterexample :
    "BUILD" ∈ lessonCategories ∧ "USER_FEEDBACK" ∈ lessonCategories ∧
    recordLessonExecute none "2026-02-21 12:00" "BUILD" "x" 0 =
      ⟨.invalidCategory, none, 1⟩ ∧
    recordLessonExecute none "2026-02-21 12:00" "USER_FEEDBACK" "x" 0 =
      ⟨.invalidCategory, none, 1⟩ := by
  decide

/-- **C5 (amended).** For every category in the tool's own seven-element
enumeration (ARCHITECTURE, TESTING, LINTER, STYLE, PERFORMANCE,
SECURITY, GENERAL) and every non-empty lesson, the tool accepts the
call: the outcome is recorded or duplicate-skipped and the mistake
counter is unchanged.  (BUILD and USER_FEEDBACK, though members of
`LessonCategory`, are rejected.) -/
theorem recordLessonExecute_accepts_valid (file : Option String)
    (timestamp category lesson : String) (n : Nat)
    (hcat : category ∈ validCategories) (hles : lesson ≠ "") :
    ((recordLessonExecute file timestamp category lesson n).outcome =
        .recorded category ∨
      (recordLessonExecute file timestamp category lesson n).outcome =
        .duplicateSkipped) ∧
    (recordLessonExecute file timestamp category lesson n).consecutiveMistakeCount
      = n := by
  have hcatne : category ≠ "" := by
    intro h
    rw [h] at hcat
    exact absurd hcat (by decide)
  unfold recordLessonExecute
  rw [if_neg (by simp [hcatne, hles]), if_neg (by simp [hcat])]
  rcases hrec : recordLesson file timestamp category lesson with ⟨b, file'⟩
  cases b <;> simp

/-- Witness for the amended C5 at a concrete input: recording a TESTING
lesson into an absent file succeeds without touching the counter. -/
theorem recordLessonExecute_accepts_valid_witness :
    ((recordLessonExecute none "2026-02-21 12:00" "TESTING"
        "auth requires mock JWT" 0).outcome =
      .recorded "TESTING" ∨
      (recordLessonExecute none "2026-02-21 12:00" "TESTING"
        "auth requires mock JWT" 0).outcome = .duplicateSkipped) ∧
    (recordLessonExecute none "2026-02-21 12:00" "TESTING"
        "auth requires mock JWT" 0).consecutiveMistakeCount = 0 :=
  recordLessonExecute_accepts_valid none "2026-02-21 12:00" "TESTING"
    "auth requires mock JWT" 0 (by decide) (by decide)

/-! ## Agent sessions (agentSession.ts) and the file-read pre-hook -/

/-- `AgentSession` from agentSession.ts (the file `Set` in insertion
order). -/
structure AgentSession where
  agentId : String
  createdAt : Nat
  lastActivity : Nat
  intentId : Option String
  files : List String
deriving DecidableEq

/-- The manager's `sessions: Map<string, AgentSession>`. -/
abbrev SessionMap := List (String × AgentSession)

/-- `AgentSessionManager.updateActivity`: refresh `lastActivity` when the
session exists. -/
def updateActivity (sessions : SessionMap) (agentId : String) (now : Nat) :
    SessionMap :=
  match mapGet sessions agentId with
  | some s => mapSet sessions agentId { s with lastActivity := now }
  | none => sessions

/-- `AgentSessionManager.addFile`: add to the session's file set (if the
session exists) and touch activity. -/
def addFile (sessions : SessionMap) (agentId filePath : String) (now : Nat) :
    SessionMap :=
  match mapGet sessions agentId with
  | some s =>
    let sessions' := mapSet sessions agentId
      { s with files :=
          if s.files.contains filePath then s.files else s.files ++ [filePath] }
    updateActivity sessions' agentId now
  | none => sessions

/-- `fileReadPreHook` arguments: an optional single `path` and an
optional `paths` array (non-string members are skipped by the source's
`typeof` checks, so the embedding carries strings only). -/
structure FileReadPreHookArgs where
  path : Option String
  paths : Option (List String)

structure FileReadPreHookContext where
  agentId : Option String
  workspaceRoot : Option String

structure FileReadPreHookResult where
  blocked : Bool
deriving DecidableEq

/-- The mutable state the read pre-hook touches. -/
structure ReadHookState where
  snapshots : SnapshotMap
  sessions : SessionMap

/-- `fileReadPreHook` from preHooks (fileRead): with a truthy agent id and
workspace root it bumps session activity and best-effort snapshots each
named file (a failed disk read skips that file); on every path it returns
`{blocked: false}`. -/
def fileReadPreHook (H : String → String) (fsRead : String → Option String)
    (args : FileReadPreHookArgs) (ctx : FileReadPreHookContext)
    (st : ReadHookState) (now : Nat) :
    FileReadPreHookResult × ReadHookState :=
  if jsTruthyStr ctx.agentId = false ∨ jsTruthyStr ctx.workspaceRoot = false then
    (⟨false⟩, st)
  else
    let agentId := ctx.agentId.getD ""
    let workspaceRoot := ctx.workspaceRoot.getD ""
    let st1 : ReadHookState :=
      { st with sessions := updateActivity st.sessions agentId now }
    let filesToSnapshot :=
      (if jsTruthyStr args.path then [args.path.getD ""] else []) ++
        args.paths.getD []
    let final := filesToSnapshot.foldl
      (fun acc filePath =>
        match takeSnapshotFromDisk H fsRead acc.snapshots filePath agentId
            workspaceRoot now with
        | some (_, snapshots') =>
          { snapshots := snapshots',
            sessions := addFile acc.sessions agentId filePath now }
        | none => acc)
      st1
    (⟨false⟩, final)

/-- **C9.** The file-read pre-hook never blocks: for every digest
primitive, disk, arguments, context, state and clock — including a
missing agent id or workspace root and unreadable files — its result is
`{blocked: false}`. -/
theorem fileReadPreHook_never_blocks (H : String → String)
    (fsRead : String → Option String) (args : FileReadPreHookArgs)
    (ctx : FileReadPreHookContext) (st : ReadHookState) (now : Nat) :
    (fileReadPreHook H fsRead args ctx st now).1.blocked = false := by
  unfold fileReadPreHook
  by_cases h : jsTruthyStr ctx.agentId = false ∨ jsTruthyStr ctx.workspaceRoot = false
  · rw [if_pos h]
  · rw [if_neg h]

end Orchestration
